import Mathlib

/-!
Verification of the `fls` dithering pipeline (src/cmd/fls.go).

The repository is a thin CLI wrapper: `rootCmd.Run` decodes an image,
optionally rescales it (lines 63-69), builds a two-entry palette
`[white, black]` (line 61), applies Floyd-Steinberg dithering (line 73)
and encodes the result.  The dimension computation, rectangle
canonicalization and the `scale != 1` skip are translated directly from
the Go source.  The bodies of `draw.NearestNeighbor.Scale` and
`draw.FloydSteinberg.Draw` live in the `golang.org/x/image/draw`
dependency, which is not part of the repository sources; those two
components are modelled from the specification, as marked in their doc
comments.
-/

namespace Fls

/-- A decoded raster: width, height, and a pixel accessor giving the scalar
luminance of the pixel at `(x, y)` as a rational (white = 255, black = 0).
The spec reduces colors to a scalar luminance for two-color quantization. -/
structure Raster where
  width : Nat
  height : Nat
  pixel : Nat → Nat → ℚ

/-- Luminance of `color.White` (line 61 of fls.go). -/
def white : ℚ := 255

/-- Luminance of `color.Black` (line 61 of fls.go). -/
def black : ℚ := 0

/-- The palette `color.Palette{color.White, color.Black}` from line 61:
index 0 is white, index 1 is black. -/
def palette : List ℚ := [white, black]

/-- Palette lookup by index. -/
def paletteVal (i : Nat) : ℚ := palette.getD i 0

/-- Absolute distance between two luminances, written without `abs` so that
it evaluates by kernel reduction. -/
def dist1 (p q : ℚ) : ℚ := if p ≤ q then q - p else p - q

/-- Modelled from the spec: the ditherer quantizes an effective
(error-adjusted) luminance to the palette entry at smaller distance,
preferring white (index 0) on a tie. -/
def quantize (eff : ℚ) : Nat :=
  if dist1 eff white ≤ dist1 eff black then 0 else 1

/-- Add `v` to the error accumulator at position `(p, q)`. -/
def addErr (err : Nat → Nat → ℚ) (p q : Nat) (v : ℚ) : Nat → Nat → ℚ :=
  fun a b => if a = p ∧ b = q then err a b + v else err a b

/-- Modelled from the spec: `draw.FloydSteinberg` (line 73) diffuses the
quantization error `e` of pixel `(x, y)` to the four not-yet-visited
neighbors with the canonical weights 7/16 (right), 3/16 (below-left),
5/16 (below), 1/16 (below-right), skipping neighbors outside the
`W × H` bounds. -/
def diffuse (W H : Nat) (err : Nat → Nat → ℚ) (x y : Nat) (e : ℚ) :
    Nat → Nat → ℚ :=
  let e1 := if x + 1 < W then addErr err (x + 1) y (7/16 * e) else err
  let e2 := if 1 ≤ x ∧ y + 1 < H then addErr e1 (x - 1) (y + 1) (3/16 * e) else e1
  let e3 := if y + 1 < H then addErr e2 x (y + 1) (5/16 * e) else e2
  if x + 1 < W ∧ y + 1 < H then addErr e3 (x + 1) (y + 1) (1/16 * e) else e3

/-- Modelled from the spec: one step of the raster-scan dithering loop.
Pixel `i` (row-major, so `x = i % W`, `y = i / W`) is quantized at its
effective luminance (original plus accumulated error), the chosen palette
index is appended to the output, and the quantization error is diffused. -/
def ditherStep (R : Raster) (st : (Nat → Nat → ℚ) × List Nat) (i : Nat) :
    (Nat → Nat → ℚ) × List Nat :=
  let x := i % R.width
  let y := i / R.width
  let eff := R.pixel x y + st.1 x y
  let idx := quantize eff
  let e := eff - paletteVal idx
  (diffuse R.width R.height st.1 x y e, st.2 ++ [idx])

/-- The initial dithering state: zero error accumulator, empty output. -/
def initSt : (Nat → Nat → ℚ) × List Nat := (fun _ _ => 0, [])

/-- Modelled from the spec: `draw.FloydSteinberg.Draw` (line 73) walks the
raster in strict raster-scan order with a zero-initialized error
accumulator, producing the row-major list of palette indices. -/
def dither (R : Raster) : List Nat :=
  ((List.range (R.width * R.height)).foldl (ditherStep R) initSt).2

/-- A 1 × 1 all-white raster. -/
def onePxWhite : Raster := ⟨1, 1, fun _ _ => white⟩

/-- A 2 × 2 all-white raster. -/
def raster22 : Raster := ⟨2, 2, fun _ _ => white⟩

/-- A 1 × 1 raster whose pixel sits exactly at the midpoint luminance. -/
def onePxMid : Raster := ⟨1, 1, fun _ _ => 255/2⟩

/-- Clamp an integer to the interval `[lo, hi]`. -/
def clampInt (lo hi v : Int) : Int := max lo (min hi v)

/-- Modelled from the spec: the nearest-neighbor source coordinate for a
destination coordinate `d` at scale `s`, clamped into `[0, n-1]`. -/
def srcCoord (s : ℚ) (d n : Nat) : Nat :=
  (clampInt 0 ((n : Int) - 1) ⌊(d : ℚ) / s⌋).toNat

/-- Modelled from the spec: `draw.NearestNeighbor.Scale` (line 67) produces
a `Wd × Hd` raster by copying, for each destination pixel, the single
clamped inverse-mapped source pixel, with no blending. -/
def rescale (R : Raster) (s : ℚ) (Wd Hd : Nat) : Raster :=
  ⟨Wd, Hd, fun xd yd => R.pixel (srcCoord s xd R.width) (srcCoord s yd R.height)⟩

/-- Go's `int(...)` conversion applied to a real value: truncation toward
zero (line 65 converts `float32(rect.Dx())*scale` this way). -/
def trunc (q : ℚ) : Int := if 0 ≤ q then ⌊q⌋ else ⌈q⌉

/-- A Go `image.Rectangle`, given by its min and max corners. -/
structure Rect where
  minX : Int
  minY : Int
  maxX : Int
  maxY : Int

/-- `image.Rect(x0, y0, x1, y1)` (line 65): the corner coordinates are
swapped on each axis when needed so the rectangle is well-formed. -/
def mkRect (x0 y0 x1 y1 : Int) : Rect where
  minX := if x0 > x1 then x1 else x0
  minY := if y0 > y1 then y1 else y0
  maxX := if x0 > x1 then x0 else x1
  maxY := if y0 > y1 then y0 else y1

/-- Width of a rectangle, `Rectangle.Dx`. -/
def Rect.dx (r : Rect) : Int := r.maxX - r.minX

/-- Height of a rectangle, `Rectangle.Dy`. -/
def Rect.dy (r : Rect) : Int := r.maxY - r.minY

/-- The raster entering the ditherer (lines 62-69 of fls.go): when the scale
equals 1 the decoded raster passes through untouched, otherwise the
destination rectangle is `image.Rect(0, 0, int(float32(W)*s), int(float32(H)*s))`
and the nearest-neighbor rescaler fills it. -/
def scaledRaster (R : Raster) (s : ℚ) : Raster :=
  if s = 1 then R
  else
    let r := mkRect 0 0 (trunc ((R.width : ℚ) * s)) (trunc ((R.height : ℚ) * s))
    rescale R s r.dx.toNat r.dy.toNat

/-- The core pipeline of `rootCmd.Run` (lines 61-74): optional rescale
followed by Floyd-Steinberg dithering into the two-color palette; the
result is the row-major list of palette indices of the output raster. -/
def pipeline (R : Raster) (s : ℚ) : List Nat := dither (scaledRaster R s)

/-! Helper lemmas shared by several claims. -/

theorem addErr_apply (err : Nat → Nat → ℚ) (p q : Nat) (v : ℚ) (a b : Nat) :
    addErr err p q v a b = err a b + (if a = p ∧ b = q then v else 0) := by
  rw [addErr]
  split_ifs <;> simp

theorem dist1_eq_abs (p q : ℚ) : dist1 p q = |p - q| := by
  unfold dist1
  rcases le_or_lt p q with h | h
  · rw [if_pos h, abs_sub_comm, abs_of_nonneg (by linarith)]
  · rw [if_neg (not_le.mpr h), abs_of_nonneg (by linarith)]

theorem quantize_eq_zero_or_one (eff : ℚ) : quantize eff = 0 ∨ quantize eff = 1 := by
  unfold quantize
  split_ifs <;> simp

theorem dither_foldl_mem (R : Raster) :
    ∀ (l : List Nat) (st : (Nat → Nat → ℚ) × List Nat),
      (∀ j ∈ st.2, j = 0 ∨ j = 1) →
      ∀ j ∈ (l.foldl (ditherStep R) st).2, j = 0 ∨ j = 1 := by
  intro l
  induction l with
  | nil => intro st h; simpa using h
  | cons i t ih =>
      intro st h
      rw [List.foldl_cons]
      apply ih
      intro j hj
      rw [ditherStep] at hj
      simp only [List.mem_append, List.mem_singleton] at hj
      rcases hj with hj | hj
      · exact h j hj
      · rw [hj]; apply quantize_eq_zero_or_one

theorem dither_foldl_length (R : Raster) :
    ∀ (l : List Nat) (st : (Nat → Nat → ℚ) × List Nat),
      (l.foldl (ditherStep R) st).2.length = st.2.length + l.length := by
  intro l
  induction l with
  | nil => intro st; simp
  | cons i t ih =>
      intro st
      rw [List.foldl_cons, ih, ditherStep]
      simp
      omega

theorem dither_length (R : Raster) : (dither R).length = R.width * R.height := by
  rw [dither, dither_foldl_length]
  simp [initSt]

theorem dither_one_one (R : Raster) (h1 : R.width = 1) (h2 : R.height = 1) :
    dither R = [quantize (R.pixel 0 0)] := by
  rw [dither, h1, h2]
  rw [show List.range (1 * 1) = [0] from rfl]
  rw [List.foldl_cons, List.foldl_nil, ditherStep]
  simp [initSt, h1]

theorem mkRect_dx_toNat (a b : Int) : (mkRect 0 0 a b).dx.toNat = a.natAbs := by
  rw [mkRect, Rect.dx]
  dsimp only
  split_ifs <;> omega

theorem mkRect_dy_toNat (a b : Int) : (mkRect 0 0 a b).dy.toNat = b.natAbs := by
  rw [mkRect, Rect.dy]
  dsimp only
  split_ifs <;> omega

theorem scaledRaster_width (R : Raster) (s : ℚ) (hs : s ≠ 1) :
    (scaledRaster R s).width = (trunc ((R.width : ℚ) * s)).natAbs := by
  rw [scaledRaster, if_neg hs]
  exact mkRect_dx_toNat _ _

theorem scaledRaster_height (R : Raster) (s : ℚ) (hs : s ≠ 1) :
    (scaledRaster R s).height = (trunc ((R.height : ℚ) * s)).natAbs := by
  rw [scaledRaster, if_neg hs]
  exact mkRect_dy_toNat _ _

theorem quantize_white : quantize white = 0 := by
  norm_num [quantize, dist1, white, black]

theorem trunc_one_mul_neg_one : trunc ((1 : ℚ) * (-1)) = -1 := by
  rw [trunc, if_neg (by norm_num)]
  rw [Int.ceil_eq_iff]
  constructor <;> norm_num

/-! Claim theorems. -/

/-- Claim C1: the quantization error of a processed pixel `(x, y)` is diffused
to exactly the four not-yet-visited neighbors with the canonical
Floyd-Steinberg weights, 7/16 right, 3/16 below-left, 5/16 below, 1/16
below-right, and a neighbor outside the `W × H` bounds is skipped (its share
of the error is lost): the updated accumulator at any position `(a, b)`
equals the old value plus precisely the shares of the in-bounds neighbor
roles that `(a, b)` plays. -/
theorem C1_floyd_steinberg_kernel (W H : Nat) (err : Nat → Nat → ℚ)
    (x y : Nat) (e : ℚ) (a b : Nat) :
    diffuse W H err x y e a b =
      err a b
        + (if a = x + 1 ∧ b = y ∧ x + 1 < W then 7/16 * e else 0)
        + (if a = x - 1 ∧ b = y + 1 ∧ 1 ≤ x ∧ y + 1 < H then 3/16 * e else 0)
        + (if a = x ∧ b = y + 1 ∧ y + 1 < H then 5/16 * e else 0)
        + (if a = x + 1 ∧ b = y + 1 ∧ x + 1 < W ∧ y + 1 < H then 1/16 * e else 0) := by
  rw [diffuse]
  by_cases h1 : x + 1 < W <;> by_cases h2 : 1 ≤ x <;> by_cases h3 : y + 1 < H <;>
    simp only [h1, h2, h3, and_true, true_and, and_false, false_and, if_true, if_false,
      ite_true, ite_false, addErr_apply, add_zero]

/-- Claim C2: every pixel of the dithered output is a palette index in
`{0, 1}`, and in the palette of line 61 index 0 is white and index 1 is
black. -/
theorem C2_two_color_closure (R : Raster) (j : Nat) (hj : j ∈ dither R) :
    (j = 0 ∨ j = 1) ∧ palette.getD 0 0 = white ∧ palette.getD 1 0 = black := by
  refine ⟨?_, rfl, rfl⟩
  rw [dither] at hj
  exact dither_foldl_mem R _ _ (by simp [initSt]) j hj

/-- Witness for C2: the single output index of the 1 × 1 white raster. -/
theorem C2_two_color_closure_witness :
    ((0 : Nat) = 0 ∨ (0 : Nat) = 1) ∧ palette.getD 0 0 = white ∧ palette.getD 1 0 = black :=
  C2_two_color_closure onePxWhite 0 (by
    rw [dither_one_one onePxWhite rfl rfl]
    rw [show onePxWhite.pixel 0 0 = white from rfl, quantize_white]
    exact List.mem_singleton.mpr rfl)

/-- Counterexample to claim C3: for the 1 × 1 raster at scale 1/2 the code
produces a 0 × 0 output raster; the dimension is not clamped to a minimum
of 1 as the claim states. -/
theorem C3_counterexample :
    (scaledRaster onePxWhite (1/2)).width = 0 ∧ (scaledRaster onePxWhite (1/2)).width ≠ 1 := by
  have h : (scaledRaster onePxWhite (1/2)).width = 0 := by
    rw [scaledRaster_width onePxWhite (1/2) (by norm_num)]
    have ht : trunc ((onePxWhite.width : ℚ) * (1/2)) = 0 := by
      rw [trunc, if_pos (by norm_num [onePxWhite])]
      rw [Int.floor_eq_iff]
      constructor <;> norm_num [onePxWhite]
    rw [ht]
    rfl
  exact ⟨h, by rw [h]; norm_num⟩

/-- Claim C3 as amended: for every positive scale factor the output raster
dimensions are `(⌊W*s⌋, ⌊H*s⌋)` with no clamping; a dimension is 0 (and not
coerced to 1) when the product is below 1. -/
theorem C3_output_dims (R : Raster) (s : ℚ) (hs : 0 < s) :
    ((scaledRaster R s).width, (scaledRaster R s).height)
      = ((⌊(R.width : ℚ) * s⌋).toNat, (⌊(R.height : ℚ) * s⌋).toNat) := by
  by_cases h1 : s = 1
  · subst h1
    rw [scaledRaster, if_pos rfl]
    simp
  · have hw := scaledRaster_width R s h1
    have hh := scaledRaster_height R s h1
    have hwn : (0 : ℚ) ≤ (R.width : ℚ) * s := by positivity
    have hhn : (0 : ℚ) ≤ (R.height : ℚ) * s := by positivity
    rw [Prod.mk.injEq]
    constructor
    · rw [hw, trunc, if_pos hwn]
      have := Int.floor_nonneg.mpr hwn
      omega
    · rw [hh, trunc, if_pos hhn]
      have := Int.floor_nonneg.mpr hhn
      omega

/-- Witness for the amended C3 at a 2 × 2 raster and scale 1/2. -/
theorem C3_output_dims_witness :
    ((scaledRaster raster22 (1/2)).width, (scaledRaster raster22 (1/2)).height)
      = ((⌊(raster22.width : ℚ) * (1/2)⌋).toNat, (⌊(raster22.height : ℚ) * (1/2)⌋).toNat) :=
  C3_output_dims raster22 (1/2) (by norm_num)

/-- Counterexample to claim C4: at the non-positive scale factor -1 the
pipeline is not rejected before processing: the 1 × 1 white raster is fully
processed into a one-pixel output. -/
theorem C4_counterexample : pipeline onePxWhite (-1) = [0] := by
  have hw : (scaledRaster onePxWhite (-1)).width = 1 := by
    rw [scaledRaster_width onePxWhite (-1) (by norm_num)]
    rw [show ((onePxWhite.width : ℚ)) = 1 from by norm_num [onePxWhite]]
    rw [trunc_one_mul_neg_one]
    rfl
  have hh : (scaledRaster onePxWhite (-1)).height = 1 := by
    rw [scaledRaster_height onePxWhite (-1) (by norm_num)]
    rw [show ((onePxWhite.height : ℚ)) = 1 from by norm_num [onePxWhite]]
    rw [trunc_one_mul_neg_one]
    rfl
  have hp : (scaledRaster onePxWhite (-1)).pixel 0 0 = white := by
    rw [scaledRaster, if_neg (by norm_num)]
    exact rfl
  rw [pipeline, dither_one_one _ hw hh, hp, quantize_white]

/-- Claim C4 as amended: a non-positive scale factor is not rejected and
triggers no error: the `scale != 1` branch runs, the destination rectangle
is canonicalized, and the pipeline produces a fully populated output of the
canonicalized dimensions. -/
theorem C4_no_rejection (R : Raster) (s : ℚ) (hs : s ≤ 0) :
    (pipeline R s).length = (scaledRaster R s).width * (scaledRaster R s).height ∧
      (scaledRaster R s).width = (trunc ((R.width : ℚ) * s)).natAbs := by
  constructor
  · rw [pipeline]
    exact dither_length _
  · exact scaledRaster_width R s (by intro h; rw [h] at hs; norm_num at hs)

/-- Witness for the amended C4 at the 1 × 1 white raster and scale -1. -/
theorem C4_no_rejection_witness :
    (pipeline onePxWhite (-1)).length
        = (scaledRaster onePxWhite (-1)).width * (scaledRaster onePxWhite (-1)).height ∧
      (scaledRaster onePxWhite (-1)).width = (trunc ((onePxWhite.width : ℚ) * (-1))).natAbs :=
  C4_no_rejection onePxWhite (-1) (by norm_num)

/-- Claim C5: at scale exactly 1 the rescale branch is skipped, the raster
entering the ditherer is the input itself, and the output raster has
exactly the input dimensions. -/
theorem C5_identity_scale (R : Raster) :
    scaledRaster R 1 = R ∧ (pipeline R 1).length = R.width * R.height := by
  have h : scaledRaster R 1 = R := by rw [scaledRaster, if_pos rfl]
  exact ⟨h, by rw [pipeline, h, dither_length]⟩

/-- Claim C6: a pixel whose effective (error-adjusted) luminance is exactly
equidistant from the white and the black palette entries quantizes
deterministically to index 0 (white) in the dithering step. -/
theorem C6_tie_break_white (R : Raster) (st : (Nat → Nat → ℚ) × List Nat) (i : Nat)
    (h : |R.pixel (i % R.width) (i / R.width) + st.1 (i % R.width) (i / R.width) - white|
       = |R.pixel (i % R.width) (i / R.width) + st.1 (i % R.width) (i / R.width) - black|) :
    (ditherStep R st i).2 = st.2 ++ [0] := by
  have hq : quantize
      (R.pixel (i % R.width) (i / R.width) + st.1 (i % R.width) (i / R.width)) = 0 := by
    rw [quantize, dist1_eq_abs, dist1_eq_abs, if_pos (le_of_eq h)]
  simp only [ditherStep]
  rw [hq]

/-- Witness for C6 at a 1 × 1 raster whose pixel sits at the exact midpoint
luminance 255/2. -/
theorem C6_tie_break_white_witness :
    (ditherStep onePxMid initSt 0).2 = initSt.2 ++ [0] :=
  C6_tie_break_white onePxMid initSt 0 (by
    rw [show onePxMid.pixel (0 % onePxMid.width) (0 / onePxMid.width) = 255/2 from rfl]
    rw [show initSt.1 (0 % onePxMid.width) (0 / onePxMid.width) = 0 from rfl]
    rw [show (255/2 : ℚ) + 0 - white = -(255/2) from by rw [white]; ring]
    rw [show (255/2 : ℚ) + 0 - black = 255/2 from by rw [black]; ring]
    rw [abs_neg])

/-- Claim C7: the pipeline is deterministic: identical input raster and
scale always produce the identical output index list (the embedding is a
pure function of its inputs, with no randomness and no parallelism). -/
theorem C7_determinism (R1 R2 : Raster) (s1 s2 : ℚ) (hR : R1 = R2) (hs : s1 = s2) :
    pipeline R1 s1 = pipeline R2 s2 := by
  rw [hR, hs]

/-- Witness for C7 at the 1 × 1 white raster and scale 1. -/
theorem C7_determinism_witness : pipeline onePxWhite 1 = pipeline onePxWhite 1 :=
  C7_determinism onePxWhite onePxWhite 1 1 rfl rfl

/-- Claim C8: dithering the 1 × 1 all-white raster yields precisely the
single output index 0 (white), and every one of the four diffusion targets
is out of bounds, so the error accumulator is left untouched. -/
theorem C8_one_by_one_white :
    dither onePxWhite = [0] ∧
      ∀ (e : ℚ) (a b : Nat),
        diffuse onePxWhite.width onePxWhite.height (fun _ _ => 0) 0 0 e a b = 0 := by
  constructor
  · rw [dither_one_one onePxWhite rfl rfl]
    rw [show onePxWhite.pixel 0 0 = white from rfl, quantize_white]
  · intro e a b
    simp [diffuse, onePxWhite]

/-- Claim C9: for every destination pixel `(xd, yd)` the rescaler reads the
single source pixel at the inverse-mapped coordinates `⌊xd/s⌋, ⌊yd/s⌋`
clamped into `[0, W-1] × [0, H-1]` and copies its color unchanged, with no
blending of several source pixels. -/
theorem C9_rescale_pixel (R : Raster) (s : ℚ) (Wd Hd xd yd : Nat) :
    (rescale R s Wd Hd).pixel xd yd
      = R.pixel (max 0 (min ((R.width : Int) - 1) ⌊(xd : ℚ) / s⌋)).toNat
          (max 0 (min ((R.height : Int) - 1) ⌊(yd : ℚ) / s⌋)).toNat := rfl

/-- Counterexample to claim C10: at scale -3/4 the 2 × 2 raster gets output
dimension 1, but `|⌊2 × (-3/4)⌋| = |⌊-3/2⌋| = 2`: the code truncates the
product toward zero before canonicalization, it does not floor it. -/
theorem C10_counterexample :
    (scaledRaster raster22 (-3/4)).width = 1 ∧
      (⌊(raster22.width : ℚ) * (-3/4)⌋).natAbs ≠ (scaledRaster raster22 (-3/4)).width := by
  have hw : (scaledRaster raster22 (-3/4)).width = 1 := by
    rw [scaledRaster_width raster22 (-3/4) (by norm_num)]
    have ht : trunc ((raster22.width : ℚ) * (-3/4)) = -1 := by
      rw [trunc, if_neg (by norm_num [raster22])]
      rw [Int.ceil_eq_iff]
      constructor <;> norm_num [raster22]
    rw [ht]
    rfl
  have hf : (⌊(raster22.width : ℚ) * (-3/4)⌋).natAbs = 2 := by
    have : ⌊(raster22.width : ℚ) * (-3/4)⌋ = -2 := by
      rw [Int.floor_eq_iff]
      constructor <;> norm_num [raster22]
    rw [this]
    rfl
  exact ⟨hw, by rw [hf, hw]; norm_num⟩

/-- Claim C10 as amended: a negative scale factor is not rejected: the
destination rectangle built from the negative corner coordinates is
canonicalized by swapping corners, and the output raster dimensions are
the absolute values of the toward-zero truncations of `W*s` and `H*s`
(nonnegative, and 0 when the product lies in (-1, 0]). -/
theorem C10_negative_scale_dims (R : Raster) (s : ℚ) (hs : s < 0) :
    ((scaledRaster R s).width, (scaledRaster R s).height)
      = ((trunc ((R.width : ℚ) * s)).natAbs, (trunc ((R.height : ℚ) * s)).natAbs) := by
  have h1 : s ≠ 1 := by intro h; rw [h] at hs; norm_num at hs
  rw [Prod.mk.injEq]
  exact ⟨scaledRaster_width R s h1, scaledRaster_height R s h1⟩

/-- Witness for the amended C10 at a 2 × 2 raster and scale -3/4. -/
theorem C10_negative_scale_dims_witness :
    ((scaledRaster raster22 (-3/4)).width, (scaledRaster raster22 (-3/4)).height)
      = ((trunc ((raster22.width : ℚ) * (-3/4))).natAbs,
          (trunc ((raster22.height : ℚ) * (-3/4))).natAbs) :=
  C10_negative_scale_dims raster22 (-3/4) (by norm_num)

end Fls
